import Mathlib

/-!
Verification development for the HemingwayGuard interception coordinator.

The Go sources are embedded shallowly:
* package `strings` helpers (`Fields`, `TrimSpace`, `ToLower`, `Contains`,
  `Join`) are modelled on `List Char` via `String.data`;
* package `analyzer` (`Analysis`, `Analyzer.Analyze`, `Analyzer.mockAnalysis`);
* package `keyboard` (`goEventCallback`, `Interceptor.handleKeyEvent`,
  `PostEnterKey`, `Interceptor.ReleaseEnter`);
* the `main` entry point of the app (the `InterceptHandler` closure wired in
  `main`, and the `context` plumbing `Background -> WithCancel -> WithCancel`).

The event-tap callback is delivered serially on one run loop, so event
sequences are modelled as lists processed one at a time; the micro-states a
single callback passes through are made explicit where a claim speaks about
instants inside a callback.
-/

set_option maxRecDepth 10000

namespace HemingwayGuard

/-! ## Go `strings` package primitives -/

namespace strings

/-- Whitespace in the sense of Go `unicode.IsSpace`: ASCII space characters
plus the Unicode White_Space code points. -/
def isSpace (c : Char) : Bool :=
  c = ' ' || c = '\t' || c = '\n' || c = '\x0b' || c = '\x0c' || c = '\r' ||
  c = '\u0085' || c = ' ' || c = ' ' ||
  (0x2000 ≤ c.toNat && c.toNat ≤ 0x200a) ||
  c = ' ' || c = ' ' || c = ' ' || c = ' ' || c = '　'

/-- Go `strings.Fields`: split around runs of whitespace, dropping empties. -/
def Fields (s : String) : List String :=
  ((s.data.splitOnP isSpace).filter (fun w => w ≠ [])).map (fun w => ⟨w⟩)

/-- Drop leading characters satisfying `isSpace`. -/
def dropSpaces : List Char → List Char
  | [] => []
  | c :: rest => if isSpace c then dropSpaces rest else c :: rest

/-- Go `strings.TrimSpace`: remove leading and trailing whitespace. -/
def TrimSpace (s : String) : String :=
  ⟨(dropSpaces (dropSpaces s.data).reverse).reverse⟩

/-- Lower-case one character. Go `unicode.ToLower` also folds the rest of
Unicode, but only two code points have a simple lower-case mapping into
ASCII: U+0130 (mapped to i, a letter that occurs in the passive-voice
indicator strings, so it is folded here too) and U+212A (mapped to k, which
occurs in no indicator). With U+0130 handled, the mapping is observationally
equivalent to Go for every use in this development. -/
def toLowerChar (c : Char) : Char :=
  if 'A' ≤ c && c ≤ 'Z' then Char.ofNat (c.toNat + 32)
  else if c = 'İ' then 'i'
  else c

/-- Go `strings.ToLower`. -/
def ToLower (s : String) : String :=
  ⟨s.data.map toLowerChar⟩

/-- Go `strings.Contains`: `sub` occurs as a contiguous substring of `s`. -/
def Contains (s sub : String) : Bool :=
  s.data.tails.any (fun t => sub.data.isPrefixOf t)

/-- Go `strings.Join`: concatenate `elems`, placing `sep` between elements. -/
def Join (elems : List String) (sep : String) : String :=
  match elems with
  | [] => ""
  | e :: rest => rest.foldl (fun acc w => acc ++ sep ++ w) e

end strings

/-! ## Go `context` package (the parts `main` uses) -/

/-- A Go `context.Context`, reduced to the attribute the claims inspect:
whether any deadline has been attached to it. `context.Background()` has
none, and `context.WithCancel` never adds one. -/
structure GoContext where
  deadline : Option Nat
deriving DecidableEq

/-- Go `context.Background()`. -/
def GoContext.background : GoContext := ⟨none⟩

/-- Go `context.WithCancel(parent)`: a cancellable child; the deadline (there
is none anywhere in this program) is inherited unchanged. -/
def withCancel (parent : GoContext) : GoContext := ⟨parent.deadline⟩

/-- The context the validator call actually receives: `main` creates
`ctx, cancel := context.WithCancel(context.Background())` and
`Interceptor.Start` wraps it once more with `context.WithCancel`; the handler
is invoked with that inner context. -/
def mainValidationCtx : GoContext := withCancel (withCancel GoContext.background)

/-! ## Package `analyzer` -/

/-- `analyzer.Analysis`: the result record of a Hemingway analysis. -/
structure Analysis where
  Approved : Bool
  WordCount : Nat
  ReadTimeSeconds : Nat
  GradeLevel : ℚ
  Issues : List String
  Suggestion : String
deriving DecidableEq

/-- `analyzer.AppContext`: where the message is being sent. -/
structure AppContext where
  AppName : String
  ChannelType : String
deriving DecidableEq

/-- `analyzer.Analyzer`: carries no state until the LLM client is wired in. -/
structure Analyzer where
deriving DecidableEq

/-- `analyzer.NewAnalyzer`. -/
def NewAnalyzer : Analyzer := ⟨⟩

/-- The passive-voice indicator list of `Analyzer.mockAnalysis`. -/
def passiveIndicators : List String :=
  ["was", "were", "been", "being", "is being", "are being"]

/-- `Analyzer.mockAnalysis`: the local heuristic standing in for the LLM.
Returns `(*Analysis, nil)` in Go, hence always `Except.ok` here. -/
def Analyzer.mockAnalysis (_self : Analyzer) (text : String) :
    Except String Analysis :=
  let words := strings.Fields text
  let wordCount := words.length
  let issues1 : List String :=
    if wordCount > 100 then [] ++ ["message is quite long"] else []
  let approved : Bool := if wordCount > 100 then false else true
  let lowerText := strings.ToLower text
  let issues2 : List String :=
    if passiveIndicators.any
        (fun indicator => strings.Contains lowerText (" " ++ indicator ++ " "))
    then issues1 ++ ["possible passive voice detected"] else issues1
  let readTime0 := (wordCount * 60) / 200
  let readTime := if readTime0 < 1 then 1 else readTime0
  let gradeLevel0 : ℚ := (wordCount : ℚ) / 10
  let gradeLevel := if gradeLevel0 > 12 then 12 else gradeLevel0
  let suggestion :=
    if !approved && wordCount > 100
    then strings.Join (words.take 50) " " ++ "..." else ""
  Except.ok ⟨approved, wordCount, readTime, gradeLevel, issues2, suggestion⟩

/-- `Analyzer.Analyze`: whitespace-only text is approved outright with an
empty issue list; otherwise the mock heuristic runs. The `ctx` and `appCtx`
arguments are accepted but never read (the Go body ignores `ctx`, and
`buildPrompt` is referenced only to silence an unused warning). -/
def Analyzer.Analyze (self : Analyzer) (_ctx : GoContext) (text : String)
    (_appCtx : AppContext) : Except String Analysis :=
  if strings.TrimSpace text = "" then
    Except.ok ⟨true, 0, 0, 0, [], ""⟩
  else
    self.mockAnalysis text

/-- Project the `Approved` field out of an `Analyze` result. -/
def analysisApproved : Except String Analysis → Option Bool
  | Except.ok a => some a.Approved
  | Except.error _ => none

/-- Project the `Issues` field out of an `Analyze` result. -/
def analysisIssues : Except String Analysis → Option (List String)
  | Except.ok a => some a.Issues
  | Except.error _ => none

/-! ## Package `keyboard` -/

/-- `keyboard.KeyCodeReturn`: the main Return key. -/
def KeyCodeReturn : Int := 36

/-- `keyboard.KeyCodeEnter`: the numpad Enter key. -/
def KeyCodeEnter : Int := 76

/-- `keyboard.Modifiers`: the modifier flags read off a key event. -/
structure Modifiers where
  Shift : Bool
  Command : Bool
  Control : Bool
  Option : Bool
deriving DecidableEq

/-- The mutex-protected fields of `keyboard.Interceptor` that
`handleKeyEvent` reads (the event tap and cancel function are platform
resources with no bearing on the decision logic). The handler is the
`InterceptHandler` installed by `SetHandler`, `none` when unset. -/
structure Interceptor where
  monitoring : Bool
  handler : Option (GoContext → Bool)
  ctx : GoContext

/-- `Interceptor.handleKeyEvent`: modified Enter passes through; otherwise the
keystroke is allowed unless monitoring is on and a handler is set, in which
case the handler decides. Returning `true` means the event is allowed. -/
def Interceptor.handleKeyEvent (i : Interceptor) (_keyCode : Int)
    (m : Modifiers) : Bool :=
  if m.Command || m.Control || m.Option then true
  else if m.Shift then true
  else if !i.monitoring then true
  else
    match i.handler with
    | some h => h i.ctx
    | none => true

/-- `keyboard.goEventCallback`, as the Boolean question the claims ask of it:
does the intercepted event pass through? The C side returns the event itself
to pass it (`true` here) and NULL to swallow it (`false`). Non-trigger key
codes are returned untouched before the Go callback is even consulted; `cb`
is the callback installed via `SetEventCallback`. -/
def goEventCallback (cb : Option (Int → Modifiers → Bool)) (keyCode : Int)
    (m : Modifiers) : Bool :=
  if keyCode ≠ KeyCodeReturn ∧ keyCode ≠ KeyCodeEnter then true
  else
    match cb with
    | some f => f keyCode m
    | none => true

/-- A synthetic key event posted through `CGEventPost`. -/
inductive PostedKey where
  | down (code : Int)
  | up (code : Int)
deriving DecidableEq

/-- The C helper `postKeyEvent`: append one synthetic key-down or key-up
event to the stream of posted events. -/
def postKeyEvent (posted : List PostedKey) (code : Int) (keyDown : Bool) :
    List PostedKey :=
  posted ++ [if keyDown then PostedKey.down code else PostedKey.up code]

/-- `keyboard.PostEnterKey`: unconditionally post a Return key-down followed
by a key-up. -/
def PostEnterKey (posted : List PostedKey) : List PostedKey :=
  postKeyEvent (postKeyEvent posted KeyCodeReturn true) KeyCodeReturn false

/-- `Interceptor.ReleaseEnter`: logs and calls `PostEnterKey`; it consults no
state of the interceptor. -/
def ReleaseEnter (posted : List PostedKey) : List PostedKey :=
  PostEnterKey posted

/-! ## The `main` package: the `InterceptHandler` closure -/

/-- The `InterceptHandler` closure wired in `main`, parametric in the analyzer
call it makes (`hemingway.Analyze` in `main`; the claims about validator
errors quantify over the validator behaviour this call can exhibit).
Empty text is allowed without analysis; an analysis error is allowed
(fail-open); an approved analysis is allowed; a flagged analysis is — per the
TODO in the source, the popover being unimplemented — logged and allowed. -/
def interceptHandler
    (analyze : GoContext → String → AppContext → Except String Analysis)
    (text : String) (appCtx : AppContext) (ctx : GoContext) : Bool :=
  if text = "" then true
  else
    match analyze ctx text appCtx with
    | Except.error _ => true
    | Except.ok analysis =>
      if analysis.Approved then true
      else true

/-- Instrumentation of the same closure: `true` exactly when control reaches
the `hemingway.Analyze` call site. -/
def interceptHandlerCallsAnalyze
    (analyze : GoContext → String → AppContext → Except String Analysis)
    (text : String) (appCtx : AppContext) (ctx : GoContext) : Bool :=
  if text = "" then false
  else
    match analyze ctx text appCtx with
    | Except.error _ => true
    | Except.ok _ => true

/-- The handler `main` actually installs: the closure above applied to
`hemingway.Analyze` where `hemingway := NewAnalyzer`. -/
def mainInterceptHandler (text : String) (appCtx : AppContext)
    (ctx : GoContext) : Bool :=
  interceptHandler NewAnalyzer.Analyze text appCtx ctx

/-- Whether one delivery of the event-tap callback reaches the validator
call, following the branch structure of `goEventCallback` →
`Interceptor.handleKeyEvent` → the `InterceptHandler` closure as wired by
`main` (`SetEventCallback(i.handleKeyEvent)`, `SetHandler(closure)`). -/
def callbackCallsAnalyze (monitoring : Bool)
    (analyze : GoContext → String → AppContext → Except String Analysis)
    (text : String) (appCtx : AppContext) (ctx : GoContext)
    (keyCode : Int) (m : Modifiers) : Bool :=
  if keyCode ≠ KeyCodeReturn ∧ keyCode ≠ KeyCodeEnter then false
  else if m.Command || m.Control || m.Option then false
  else if m.Shift then false
  else if !monitoring then false
  else interceptHandlerCallsAnalyze analyze text appCtx ctx

/-! ## Instants and traces

The CGEventTap delivers key-down events serially on one run loop thread, and
`goEventCallback` runs the whole decision synchronously, so a sequence of
events is processed one at a time. An `Obs` records what is live at one
instant: how many trigger keystrokes are currently suspended (delivery
decision withheld) and how many validator calls are currently executing. -/

/-- One instant of the run: live suspended keystrokes and live validator
calls. -/
structure Obs where
  pendingIntercepts : Nat
  inFlightValidations : Nat
deriving DecidableEq

/-- An externally visible event: a key-down delivered to the tap (with the
focused-field text the handler would read at that moment), or a
`SetMonitoring` call from the focus tracker. -/
inductive GuardEvent where
  | key (keyCode : Int) (m : Modifiers) (text : String)
  | monitor (b : Bool)

/-- The instants passed through while one key-down is inside the callback:
the keystroke is suspended for the duration of the callback, and if the
branch structure reaches the validator call, one validation is in flight
strictly inside that window. -/
def keyMicro (monitoring : Bool) (keyCode : Int) (m : Modifiers)
    (text : String) : List Obs :=
  if callbackCallsAnalyze monitoring NewAnalyzer.Analyze text ⟨"", ""⟩
      GoContext.background keyCode m
  then [⟨1, 0⟩, ⟨1, 1⟩, ⟨1, 0⟩]
  else [⟨1, 0⟩]

/-- All instants of a serial run over an event list, starting from the given
monitoring flag; between events nothing is suspended and nothing is in
flight, because every callback resolves its own keystroke before returning. -/
def traceAux : Bool → List GuardEvent → List Obs
  | _, [] => [⟨0, 0⟩]
  | monitoring, GuardEvent.key kc m text :: rest =>
    ⟨0, 0⟩ :: (keyMicro monitoring kc m text ++ traceAux monitoring rest)
  | _, GuardEvent.monitor b :: rest => ⟨0, 0⟩ :: traceAux b rest

/-- The trace of a run started with monitoring off, as `NewInterceptor`
leaves it. -/
def guardTrace (evs : List GuardEvent) : List Obs :=
  traceAux false evs

/-- A 101-word message: over the 100-word limit of the mock heuristic. -/
def longMessage : String := strings.Join (List.replicate 101 "a") " "

/-! ## Helper lemmas -/

/-- Appending the ellipsis to any string yields a non-empty string. -/
theorem append_dots_ne (s : String) : s ++ "..." ≠ "" := by
  intro hc
  have h2 := congrArg String.data hc
  rw [String.data_append] at h2
  simp at h2

/-- On whitespace-only text, `Analyze` returns the trivial approval. -/
theorem Analyze_of_trivial (self : Analyzer) (ctx : GoContext)
    (text : String) (appCtx : AppContext)
    (h : strings.TrimSpace text = "") :
    self.Analyze ctx text appCtx = Except.ok ⟨true, 0, 0, 0, [], ""⟩ := by
  unfold Analyzer.Analyze
  rw [if_pos h]

/-- On non-trivial text, `Analyze` runs the mock heuristic. -/
theorem Analyze_of_nontrivial (self : Analyzer) (ctx : GoContext)
    (text : String) (appCtx : AppContext)
    (h : strings.TrimSpace text ≠ "") :
    self.Analyze ctx text appCtx = self.mockAnalysis text := by
  unfold Analyzer.Analyze
  rw [if_neg h]

/-- If every handler the interceptor might hold answers `true` on the
interceptor context, the key-event decision is `true` (allow). -/
theorem handleKeyEvent_allow_of_handler (i : Interceptor) (keyCode : Int)
    (m : Modifiers) (h : ∀ f, i.handler = some f → f i.ctx = true) :
    i.handleKeyEvent keyCode m = true := by
  unfold Interceptor.handleKeyEvent
  split
  · rfl
  · split
    · rfl
    · split
      · rfl
      · cases hf : i.handler with
        | none => rfl
        | some f => exact h f hf

/-! ## Claims -/

/-- Claim C1: fail-open on validation failure. Whenever the validator call
made by the InterceptHandler closure returns an error, the handler returns
`true`, and the full event-tap callback (as wired by `main`) lets the
keystroke through unmodified, for every key code, modifier set and
monitoring flag. -/
theorem c1_fail_open_release
    (analyze : GoContext → String → AppContext → Except String Analysis)
    (monitoring : Bool) (text : String) (appCtx : AppContext)
    (ctx : GoContext) (e : String) (keyCode : Int) (m : Modifiers)
    (h : analyze ctx text appCtx = Except.error e) :
    interceptHandler analyze text appCtx ctx = true ∧
    goEventCallback
      (some (Interceptor.handleKeyEvent
        ⟨monitoring, some (interceptHandler analyze text appCtx), ctx⟩))
      keyCode m = true := by
  have h1 : interceptHandler analyze text appCtx ctx = true := by
    unfold interceptHandler
    by_cases ht : text = ""
    · simp [ht]
    · simp [ht, h]
  refine ⟨h1, ?_⟩
  unfold goEventCallback
  split
  · rfl
  · exact handleKeyEvent_allow_of_handler _ keyCode m
      (fun f hf => by injection hf with hf2; subst hf2; exact h1)

/-- Witness for C1 at a concrete timed-out validator and a plain Return
press while monitoring. -/
theorem c1_fail_open_release_witness :
    ((fun (_ : GoContext) (_ : String) (_ : AppContext) =>
        (Except.error "timeout" : Except String Analysis))
      GoContext.background "hello" ⟨"", ""⟩ =
        Except.error "timeout") ∧
    (interceptHandler
        (fun _ _ _ => (Except.error "timeout" : Except String Analysis))
        "hello" ⟨"", ""⟩ GoContext.background = true ∧
      goEventCallback
        (some (Interceptor.handleKeyEvent
          ⟨true,
            some (interceptHandler
              (fun _ _ _ => (Except.error "timeout" : Except String Analysis))
              "hello" ⟨"", ""⟩),
            GoContext.background⟩))
        KeyCodeReturn ⟨false, false, false, false⟩ = true) :=
  ⟨rfl, c1_fail_open_release _ true "hello" ⟨"", ""⟩ GoContext.background
    "timeout" KeyCodeReturn ⟨false, false, false, false⟩ rfl⟩

/-- Claim C3 (code evidence): on a plain Return press while monitoring with
non-empty focused text, the event-tap callback itself reaches the
`hemingway.Analyze` call — the validator runs inside the callback, not
out-of-band. -/
theorem c3_callback_invokes_validator :
    callbackCallsAnalyze true NewAnalyzer.Analyze "hello world" ⟨"", ""⟩
      GoContext.background KeyCodeReturn ⟨false, false, false, false⟩ =
      true := by decide

/-- Claim C4 (code evidence): a 101-word message is analyzed as
`Approved = false`, yet the installed handler returns `true` — the keystroke
is released immediately with no awaiting-user-decision stage. -/
theorem c4_flagged_released_without_user_decision :
    analysisApproved
      (NewAnalyzer.Analyze GoContext.background longMessage ⟨"", ""⟩) =
      some false ∧
    mainInterceptHandler longMessage ⟨"", ""⟩ GoContext.background = true := by
  constructor <;> decide

/-- Claim C5 (counterexample): for the two-word string "ok" the handler does
reach the validator call — the ValidationPort is called, contradicting the
claim that trivial content below a minimum-length threshold skips it. -/
theorem c5_counterexample_ok_calls_validator :
    interceptHandlerCallsAnalyze NewAnalyzer.Analyze "ok" ⟨"", ""⟩
      GoContext.background = true := by decide

/-- Claim C5 (amended): only empty content skips validation — the handler
returns `true` without reaching the validator call exactly when the focused
text is empty, and for every non-empty text (whatever the validator answers)
the validator call site is reached; in particular for the two-word string
"ok" the validator is called and the keystroke is still released because the
analysis approves it. -/
theorem c5_only_empty_skips_validation :
    (∀ (analyze : GoContext → String → AppContext → Except String Analysis)
        (appCtx : AppContext) (ctx : GoContext),
      interceptHandler analyze "" appCtx ctx = true ∧
        interceptHandlerCallsAnalyze analyze "" appCtx ctx = false) ∧
    (∀ (analyze : GoContext → String → AppContext → Except String Analysis)
        (text : String) (appCtx : AppContext) (ctx : GoContext),
      text ≠ "" →
        interceptHandlerCallsAnalyze analyze text appCtx ctx = true) ∧
    mainInterceptHandler "ok" ⟨"", ""⟩ GoContext.background = true ∧
    interceptHandlerCallsAnalyze NewAnalyzer.Analyze "ok" ⟨"", ""⟩
      GoContext.background = true := by
  refine ⟨fun analyze appCtx ctx => ⟨?_, ?_⟩,
    fun analyze text appCtx ctx h => ?_, by decide, by decide⟩
  · simp [interceptHandler]
  · simp [interceptHandlerCallsAnalyze]
  · unfold interceptHandlerCallsAnalyze
    rw [if_neg h]
    cases analyze ctx text appCtx <;> rfl

/-- Witness for C5 (amended): the non-empty text "ok" satisfies the
hypothesis, and the validator call site is reached there. -/
theorem c5_only_empty_skips_validation_witness :
    (("ok" : String) ≠ "") ∧
    interceptHandlerCallsAnalyze NewAnalyzer.Analyze "ok" ⟨"", ""⟩
      GoContext.background = true :=
  ⟨by decide,
    c5_only_empty_skips_validation.2.1 NewAnalyzer.Analyze "ok" ⟨"", ""⟩
      GoContext.background (by decide)⟩

/-- Claim C6: a trigger-key event carrying Shift, Command, Control or Option
is never swallowed — the full callback returns allow for every key code,
every interceptor state, even a handler that would answer `false`. -/
theorem c6_modified_trigger_passes_through (i : Interceptor) (keyCode : Int)
    (m : Modifiers)
    (h : (m.Shift || m.Command || m.Control || m.Option) = true) :
    goEventCallback (some i.handleKeyEvent) keyCode m = true := by
  unfold goEventCallback
  split
  · rfl
  · have hall : i.handleKeyEvent keyCode m = true := by
      unfold Interceptor.handleKeyEvent
      cases hS : m.Shift <;> cases hC : m.Command <;>
        cases hCt : m.Control <;> cases hO : m.Option <;> simp_all
    exact hall

/-- Witness for C6: Shift+Return, monitoring on, with a handler that answers
`false`; the event still passes through. -/
theorem c6_modified_trigger_passes_through_witness :
    ((Modifiers.mk true false false false).Shift ||
      (Modifiers.mk true false false false).Command ||
      (Modifiers.mk true false false false).Control ||
      (Modifiers.mk true false false false).Option) = true ∧
    goEventCallback
      (some (Interceptor.handleKeyEvent
        ⟨true, some (fun _ => false), GoContext.background⟩))
      KeyCodeReturn ⟨true, false, false, false⟩ = true :=
  ⟨by decide, c6_modified_trigger_passes_through _ KeyCodeReturn _ (by decide)⟩

/-- Claim C7 (code evidence): the context the validator receives carries no
deadline — `main` builds it from `Background` through two `WithCancel`
wrappers and never attaches a timeout — and `Analyze` ignores its context
entirely, so no expiry can ever produce a timeout outcome. -/
theorem c7_no_deadline_configured :
    mainValidationCtx.deadline = none ∧
    ∀ (c c' : GoContext) (a : Analyzer) (text : String)
      (appCtx : AppContext),
      a.Analyze c text appCtx = a.Analyze c' text appCtx :=
  ⟨rfl, fun _ _ _ _ _ => rfl⟩

/-- Claim C8 (counterexample): the three-word message "it was done" is
approved, yet its issue list is non-empty — the passive-voice heuristic adds
an issue without revoking approval. -/
theorem c8_counterexample_passive_voice :
    analysisApproved
      (NewAnalyzer.Analyze GoContext.background "it was done" ⟨"", ""⟩) =
      some true ∧
    analysisIssues
      (NewAnalyzer.Analyze GoContext.background "it was done" ⟨"", ""⟩) =
      some ["possible passive voice detected"] := by
  constructor <;> decide

/-- Claim C9 (counterexample): with no swallowed key event pending — no call
has ever swallowed one — `ReleaseEnter` still posts synthetic key events,
and a second call is again not a no-op. -/
theorem c9_counterexample_release_not_noop :
    ReleaseEnter [] ≠ [] ∧
    ReleaseEnter (ReleaseEnter []) ≠ ReleaseEnter [] := by decide

/-- Claim C9 (amended): `ReleaseEnter` consults no pending-swallow state: on
every call, whatever has been posted before, it appends exactly one
synthetic Return key-down/key-up pair. -/
theorem c9_release_always_posts_pair (posted : List PostedKey) :
    ReleaseEnter posted =
      posted ++ [PostedKey.down KeyCodeReturn, PostedKey.up KeyCodeReturn] := by
  simp [ReleaseEnter, PostEnterKey, postKeyEvent]

/-- Every instant inside one key-event delivery has at most one suspended
keystroke and at most one live validation. -/
theorem keyMicro_bound (monitoring : Bool) (keyCode : Int) (m : Modifiers)
    (text : String) (o : Obs) (h : o ∈ keyMicro monitoring keyCode m text) :
    o.pendingIntercepts ≤ 1 ∧ o.inFlightValidations ≤ 1 := by
  unfold keyMicro at h
  split at h
  · simp only [List.mem_cons, List.not_mem_nil, or_false] at h
    rcases h with h | h | h <;> subst h <;> exact ⟨by decide, by decide⟩
  · simp only [List.mem_cons, List.not_mem_nil, or_false] at h
    subst h
    exact ⟨by decide, by decide⟩

/-- Every instant of a serial run, from any starting monitoring flag, has at
most one suspended keystroke and at most one live validation. -/
theorem traceAux_bound (evs : List GuardEvent) :
    ∀ (monitoring : Bool) (o : Obs), o ∈ traceAux monitoring evs →
      o.pendingIntercepts ≤ 1 ∧ o.inFlightValidations ≤ 1 := by
  induction evs with
  | nil =>
    intro monitoring o h
    simp only [traceAux, List.mem_cons, List.not_mem_nil, or_false] at h
    subst h
    exact ⟨by decide, by decide⟩
  | cons e rest ih =>
    cases e with
    | key kc m text =>
      intro monitoring o h
      simp only [traceAux, List.mem_cons, List.mem_append] at h
      rcases h with h | h | h
      · subst h; exact ⟨by decide, by decide⟩
      · exact keyMicro_bound monitoring kc m text o h
      · exact ih monitoring o h
    | monitor b =>
      intro monitoring o h
      simp only [traceAux, List.mem_cons] at h
      rcases h with h | h
      · subst h; exact ⟨by decide, by decide⟩
      · exact ih b o h

/-- Claim C2: over every sequence of focus and trigger-key events, every
instant of the run shows at most one suspended trigger keystroke
(PendingIntercept) and at most one validation in flight; nothing is ever
queued because each callback resolves its keystroke before the next event
is processed. -/
theorem c2_at_most_one_in_flight (evs : List GuardEvent) (o : Obs)
    (h : o ∈ guardTrace evs) :
    o.pendingIntercepts ≤ 1 ∧ o.inFlightValidations ≤ 1 :=
  traceAux_bound evs false o h

/-- Witness for C2: a run that switches monitoring on and delivers one plain
Return press over non-empty text does pass through the instant with one
suspended keystroke and one live validation, and the bounds hold there. -/
theorem c2_at_most_one_in_flight_witness :
    (Obs.mk 1 1 ∈ guardTrace
      [GuardEvent.monitor true,
        GuardEvent.key KeyCodeReturn ⟨false, false, false, false⟩
          "hello there"]) ∧
    ((Obs.mk 1 1).pendingIntercepts ≤ 1 ∧
      (Obs.mk 1 1).inFlightValidations ≤ 1) :=
  ⟨by decide,
    c2_at_most_one_in_flight
      [GuardEvent.monitor true,
        GuardEvent.key KeyCodeReturn ⟨false, false, false, false⟩
          "hello there"]
      (Obs.mk 1 1) (by decide)⟩

/-- Claim C8 (amended): an approved analysis carries no length issue — every
issue on an `Approved = true` result is the passive-voice flag (the list is
empty unless a passive-voice indicator occurs in the text). -/
theorem c8_approved_issues_only_passive (self : Analyzer) (ctx : GoContext)
    (text : String) (appCtx : AppContext)
    (ha : analysisApproved (self.Analyze ctx text appCtx) = some true) :
    ∀ l, analysisIssues (self.Analyze ctx text appCtx) = some l →
      ∀ issue ∈ l, issue = "possible passive voice detected" := by
  intro l hl issue hi
  by_cases ht : strings.TrimSpace text = ""
  · rw [Analyze_of_trivial self ctx text appCtx ht] at hl
    simp only [analysisIssues] at hl
    injection hl with hl2
    subst hl2
    simp at hi
  · rw [Analyze_of_nontrivial self ctx text appCtx ht] at ha hl
    simp only [Analyzer.mockAnalysis, analysisApproved] at ha
    simp only [Analyzer.mockAnalysis, analysisIssues] at hl
    injection ha with ha2
    injection hl with hl2
    subst hl2
    by_cases h100 : (strings.Fields text).length > 100
    · simp [h100] at ha2
    · by_cases hp : passiveIndicators.any
          (fun indicator =>
            strings.Contains (strings.ToLower text)
              (" " ++ indicator ++ " ")) = true
      · simp [h100, hp] at hi
        exact hi
      · simp [h100, hp] at hi

/-- Witness for C8 (amended) at the approved passive-voice message. -/
theorem c8_approved_issues_only_passive_witness :
    (analysisApproved
      (NewAnalyzer.Analyze GoContext.background "it was done" ⟨"", ""⟩) =
      some true) ∧
    (analysisIssues
      (NewAnalyzer.Analyze GoContext.background "it was done" ⟨"", ""⟩) =
      some ["possible passive voice detected"]) ∧
    (∀ issue ∈ ["possible passive voice detected"],
      issue = "possible passive voice detected") :=
  ⟨by decide, by decide,
    c8_approved_issues_only_passive NewAnalyzer GoContext.background
      "it was done" ⟨"", ""⟩ (by decide)
      ["possible passive voice detected"] (by decide)⟩

/-- Claim C10: total characterization of the analyzer on non-trivial input.
For every text whose trimmed content is non-empty, `Analyze` succeeds, the
result is approved exactly when the whitespace-separated word count is at
most 100, and the suggestion is non-empty exactly on disapproval, in which
case it is the first 50 words joined by spaces followed by the ellipsis. -/
theorem c10_analyzer_characterization (self : Analyzer) (ctx : GoContext)
    (text : String) (appCtx : AppContext)
    (h : strings.TrimSpace text ≠ "") :
    ∃ a : Analysis, self.Analyze ctx text appCtx = Except.ok a ∧
      (a.Approved = true ↔ (strings.Fields text).length ≤ 100) ∧
      (a.Suggestion ≠ "" ↔ a.Approved = false) ∧
      (a.Approved = false →
        a.Suggestion =
          strings.Join ((strings.Fields text).take 50) " " ++ "...") := by
  have hA : self.Analyze ctx text appCtx = self.mockAnalysis text :=
    Analyze_of_nontrivial self ctx text appCtx h
  obtain ⟨a, hm⟩ : ∃ a, self.mockAnalysis text = Except.ok a := ⟨_, rfl⟩
  refine ⟨a, hA.trans hm, ?_⟩
  unfold Analyzer.mockAnalysis at hm
  injection hm with h2
  subst h2
  by_cases h100 : (strings.Fields text).length > 100
  · have hle : ¬ (strings.Fields text).length ≤ 100 := by omega
    refine ⟨by simp [h100, hle], ?_, ?_⟩
    · simp [h100, append_dots_ne]
    · intro _
      simp [h100]
  · have hle : (strings.Fields text).length ≤ 100 := by omega
    refine ⟨by simp [h100, hle], ?_, ?_⟩
    · simp [h100]
    · intro hfalse
      simp [h100] at hfalse

/-- Witness for C10 at the one-word message "hello". -/
theorem c10_analyzer_characterization_witness :
    (strings.TrimSpace "hello" ≠ "") ∧
    (∃ a : Analysis,
      NewAnalyzer.Analyze GoContext.background "hello" ⟨"", ""⟩ =
        Except.ok a ∧
      (a.Approved = true ↔ (strings.Fields "hello").length ≤ 100) ∧
      (a.Suggestion ≠ "" ↔ a.Approved = false) ∧
      (a.Approved = false →
        a.Suggestion =
          strings.Join ((strings.Fields "hello").take 50) " " ++ "...")) :=
  ⟨by decide,
    c10_analyzer_characterization NewAnalyzer GoContext.background "hello"
      ⟨"", ""⟩ (by decide)⟩

end HemingwayGuard
